import Mathlib

/-!
Verification of the OCR / CAPTCHA core of mercado-publico-scraper.

Shallow embedding of the OCR pipeline (`src/scraper/ocr.py`) and the
CAPTCHA solve orchestration (`src/scraper/captcha_solver.py`), together
with theorems settling the specification claims about them.

External capabilities (Tesseract, OpenCV, Selenium, HTTP fetch) are
modelled as environments of abstract fallible functions; the Python
control flow around them (dispatch, try/except, aggregation, bucketing,
sorting) is translated step by step.
-/

namespace MPScraper

/-- Python exception classes that appear in the modelled code paths. -/
inductive PyErr where
  | TesseractNotFoundError
  | AttributeError
  | ValueError
  | Other (msg : String)
deriving DecidableEq, Repr

/- ### Confidence aggregation (`ocr.py` lines 61-62)

`confidences = [int(conf) for conf in data["confidence"] if int(conf) > 0]`
`avg_confidence = sum(confidences) / len(confidences) if confidences else 0`
-/

/-- Average confidence computed by `OCRProcessor.extract_text_from_image`:
the mean of the strictly positive entries, `0` when there are none. -/
def avgConfidence (confs : List ℤ) : ℚ :=
  let cs := confs.filter (fun c => 0 < c)
  if cs.isEmpty then 0 else (cs.sum : ℚ) / (cs.length : ℚ)

/- ### Python `round` and the row-bucket key (`ocr.py` line 112)

`row_key = round(y / 10) * 10` — Python 3 `round` is round-half-to-even. -/

/-- Python 3 `round` on a rational: nearest integer, ties to the even one. -/
def pythonRound (q : ℚ) : ℤ :=
  let f := ⌊q⌋
  if q - f < 1 / 2 then f
  else if 1 / 2 < q - f then f + 1
  else if f % 2 = 0 then f else f + 1

/-- Row-bucket key `round(y / 10) * 10` used by `extract_table_data`. -/
def rowKey (y : ℕ) : ℤ :=
  pythonRound ((y : ℚ) / 10) * 10

/- ### Table reconstruction (`ocr.py` lines 105-122, `extract_table_data`)

```
rows = {}
for i, (x, y, w, h, conf, text) in enumerate(zip(...)):
    if int(conf) > 0 and text.strip():
        row_key = round(y / 10) * 10
        if row_key not in rows: rows[row_key] = []
        rows[row_key].append({"x": x, "text": text, "conf": int(conf)})
sorted_rows = []
for row_key in sorted(rows.keys()):
    row_data = sorted(rows[row_key], key=lambda x: x["x"])
    row_text = [item["text"] for item in row_data]
    sorted_rows.append(row_text)
```
The Python dict is insertion-ordered; it is modelled as an association
list where a fresh key is appended at the end and an existing key has the
token appended to its bucket. Python `sorted` is a stable sort; it is
modelled by stable insertion sort, which is extensionally equal to any
stable sort under a total preorder. -/

/-- A token row of `pytesseract.image_to_data` output: position `x`, `y`
(top-left corner), confidence, and recognized text. -/
structure Tok where
  x : ℕ
  y : ℕ
  conf : ℤ
  text : String
deriving DecidableEq, Repr

/-- Model of Python `str.strip()` (no argument): drop leading and trailing
whitespace characters. -/
def pyStrip (s : String) : String :=
  ⟨((s.data.dropWhile Char.isWhitespace).reverse.dropWhile Char.isWhitespace).reverse⟩

/-- The filter `int(conf) > 0 and text.strip()` of `extract_table_data`:
Python truthiness of `text.strip()` means the stripped text is non-empty. -/
def qualifies (t : Tok) : Bool :=
  decide (0 < t.conf) && decide (pyStrip t.text ≠ "")

/-- Semantics of `rows[row_key].append(...)` on an insertion-ordered dict:
append to the bucket of `k` if present, otherwise append a new bucket at the
end. -/
def insertTok : List (ℤ × List Tok) → ℤ → Tok → List (ℤ × List Tok)
  | [], k, t => [(k, [t])]
  | (k', ts) :: rest, k, t =>
    if k' = k then (k', ts ++ [t]) :: rest
    else (k', ts) :: insertTok rest k t

/-- The grouping loop of `extract_table_data`. -/
def buildRows (toks : List Tok) : List (ℤ × List Tok) :=
  toks.foldl (fun rows t => if qualifies t then insertTok rows (rowKey t.y) t else rows) []

/-- Stable insertion of one element into a sorted list: the new element
goes before the first element it compares `le` to, hence after all earlier
elements that tie with it. -/
def insSorted (le : α → α → Bool) (a : α) : List α → List α
  | [] => [a]
  | b :: bs => if le a b then a :: b :: bs else b :: insSorted le a bs

/-- Model of Python `sorted`: a stable sort (insertion sort from the right,
so earlier input elements are inserted later and kept before ties). -/
def stableSort (le : α → α → Bool) (l : List α) : List α :=
  l.foldr (insSorted le) []

/-- Sorting step of `extract_table_data`: buckets ordered by key (the loop
over `sorted(rows.keys())`), each bucket ordered by `x`. -/
def sorted_buckets (toks : List Tok) : List (ℤ × List Tok) :=
  (stableSort (fun p q => decide (p.1 ≤ q.1)) (buildRows toks)).map
    (fun p => (p.1, stableSort (fun a b => decide (a.x ≤ b.x)) p.2))

/-- The `table` field returned by `OCRProcessor.extract_table_data`. -/
def extract_table (toks : List Tok) : List (List String) :=
  (sorted_buckets toks).map (fun p => p.2.map Tok.text)

/- ### Image preprocessing (`ocr.py` lines 170-205, `_preprocess_image`)

```
try:
    img_array = np.array(img)
    if len(img_array.shape) == 3:
        img_gray = cv2.cvtColor(img_array, cv2.COLOR_RGB2GRAY)
    else:
        img_gray = img_array
    _, img_binary = cv2.threshold(img_gray, 150, 255, cv2.THRESH_BINARY)
    img_denoised = cv2.fastNlMeansDenoising(img_binary, h=10)
    if img_denoised.shape[0] < 300:
        scale = 2
        img_denoised = cv2.resize(img_denoised, None, fx=scale, fy=scale,
                                  interpolation=cv2.INTER_CUBIC)
    return Image.fromarray(img_denoised)
except Exception as e:
    logger.warning(f"Error preprocessing image: {e}. Using original image.")
    return img
```
An image is its pixel grid plus shape; `channels = 1` encodes a 2-D array
(`len(shape) == 2`), larger values a 3-D array. The OpenCV calls are
modelled with their documented shape behaviour; colour conversion and
thresholding allow injected failures and denoising is an arbitrary
fallible function, so "any internal step fails" is representable. -/

/-- In-memory image: shape plus intensity grid. -/
structure Img where
  height : ℕ
  width : ℕ
  channels : ℕ
  px : ℕ → ℕ → ℕ

/-- OpenCV interpolation mode passed to `cv2.resize`. -/
inductive Interp where
  | INTER_CUBIC
  | INTER_LINEAR
deriving DecidableEq, Repr

/-- Environment of external OpenCV behaviour: injected failures for the
colour conversion and threshold calls, the luminance function, the denoiser,
and the pixel content produced by interpolation. -/
structure CvEnv where
  cvtColorFail : Option PyErr
  thresholdFail : Option PyErr
  grayPx : Img → ℕ → ℕ → ℕ
  denoise : Img → Except PyErr Img
  interpPx : Interp → Img → ℕ → ℕ → ℕ

/-- Model of `cv2.cvtColor(img, cv2.COLOR_RGB2GRAY)`: collapses to one
channel. -/
def cv2_cvtColor_RGB2GRAY (env : CvEnv) (img : Img) : Except PyErr Img :=
  match env.cvtColorFail with
  | some e => .error e
  | none => .ok ⟨img.height, img.width, 1, env.grayPx img⟩

/-- Model of `cv2.threshold(img, thresh, maxval, cv2.THRESH_BINARY)`: a pixel
becomes `maxval` where the source exceeds `thresh`, else 0; shape unchanged. -/
def cv2_threshold_binary (env : CvEnv) (img : Img) (thresh maxval : ℕ) :
    Except PyErr Img :=
  match env.thresholdFail with
  | some e => .error e
  | none =>
    .ok ⟨img.height, img.width, img.channels,
      fun i j => if thresh < img.px i j then maxval else 0⟩

/-- Model of `cv2.resize(img, None, fx, fy, interpolation)`: output size is
`(fy*height, fx*width)`; pixel content comes from the interpolation. -/
def cv2_resize_scale (env : CvEnv) (img : Img) (fx fy : ℕ) (interp : Interp) : Img :=
  ⟨fy * img.height, fx * img.width, img.channels, env.interpPx interp img⟩

/-- The body of the `try` block of `_preprocess_image`. -/
def preprocessInner (env : CvEnv) (img : Img) : Except PyErr Img :=
  (if img.channels ≠ 1 then cv2_cvtColor_RGB2GRAY env img else pure img).bind fun gray =>
  (cv2_threshold_binary env gray 150 255).bind fun bin =>
  (env.denoise bin).bind fun den =>
  pure (if den.height < 300 then cv2_resize_scale env den 2 2 .INTER_CUBIC else den)

/-- Embedding of `OCRProcessor._preprocess_image`: on any internal failure the original
image is returned and a warning is recorded (second component `true`). -/
def preprocess_image (env : CvEnv) (img : Img) : Img × Bool :=
  match preprocessInner env img with
  | .ok out => (out, false)
  | .error _ => (img, true)

/- ### Image loading from text (`ocr.py` lines 156-166, `_load_image`)

```
elif isinstance(image_source, str):
    if image_source.startswith("/")or image_source.startswith("."):
        return Image.open(image_source)
    else:
        try:
            img_data = base64.b64decode(image_source)
            return Image.open(io.BytesIO(img_data))
        except:
            return Image.open(image_source)
```
`Image.open` on a path, `base64.b64decode` and `Image.open` on a byte
buffer are external fallible calls, supplied by an environment. -/

/-- Model of Python `str.startswith(pre)`. -/
def pyStartsWith (s pre : String) : Bool :=
  pre.data.isPrefixOf s.data

/-- External calls used by the text branch of `_load_image`: path-based
`Image.open`, `base64.b64decode`, and `Image.open` on decoded bytes. -/
structure LoadEnv where
  openPath : String → Except PyErr Img
  b64decode : String → Except PyErr (List ℕ)
  openBytes : List ℕ → Except PyErr Img

/-- The `str` branch of `OCRProcessor._load_image`. -/
def load_image_str (env : LoadEnv) (s : String) : Except PyErr Img :=
  if pyStartsWith s "/" || pyStartsWith s "." then env.openPath s
  else
    match (env.b64decode s).bind env.openBytes with
    | .ok img => .ok img
    | .error _ => env.openPath s

/- ### Text extraction (`ocr.py` lines 36-84, `extract_text_from_image`)

```
try:
    img = self._load_image(image_source)
    if self.enable_preprocessing:
        img = self._preprocess_image(img)
    text = pytesseract.image_to_string(img, lang=self.language)
    data = pytesseract.image_to_data(img, lang=self.language, ...)
    confidences = [int(conf) for conf in data["confidence"] if int(conf) > 0]
    avg_confidence = sum(confidences) / len(confidences) if confidences else 0
    return {"text": text.strip(), "confidence": avg_confidence,
            "word_count": len(text.split()), "language": self.language,
            "data": data, "success": True}
except Exception as e:
    return {"text": "", "confidence": 0, "word_count": 0,
            "language": self.language, "data": dict(), "success": False,
            "error": str(e)}
```
The Tesseract invocations are external fallible calls; a missing engine
installation surfaces as `pytesseract.TesseractNotFoundError` raised by
either invocation. -/

/-- Model of `len(text.split())`: number of maximal non-whitespace runs. -/
def pyWordCount (s : String) : ℕ :=
  ((s.data.splitOnP Char.isWhitespace).filter (fun w => w ≠ [])).length

/-- The token-level output dict of `pytesseract.image_to_data`; only its
`confidence` column is consumed by `extract_text_from_image`. -/
structure TessData where
  confidence : List ℤ
deriving DecidableEq, Repr

/-- External calls of `extract_text_from_image`: the image load outcome for
the given source, the OpenCV environment used by preprocessing, and the two
Tesseract invocations. -/
structure OcrEnv where
  load : Except PyErr Img
  pre : CvEnv
  image_to_string : Img → String → Except PyErr String
  image_to_data : Img → String → Except PyErr TessData

/-- The result dict of `extract_text_from_image` (`data` is `none` for the
`{}` of the failure branch; `error` is present only on failure). -/
structure ExtractResult where
  text : String
  confidence : ℚ
  word_count : ℕ
  language : String
  data : Option TessData
  success : Bool
  error : Option PyErr
deriving DecidableEq, Repr

/-- The body of the `try` block of `extract_text_from_image`. -/
def extractInner (env : OcrEnv) (language : String) (enablePre : Bool) :
    Except PyErr ExtractResult :=
  env.load.bind fun img0 =>
  let img := if enablePre then (preprocess_image env.pre img0).1 else img0
  (env.image_to_string img language).bind fun text =>
  (env.image_to_data img language).bind fun data =>
  .ok ⟨pyStrip text, avgConfidence data.confidence, pyWordCount text,
    language, some data, true, none⟩

/-- Embedding of `OCRProcessor.extract_text_from_image`: a total function — every internal
exception is caught and converted to the failure dict. -/
def extract_text_from_image (env : OcrEnv) (language : String) (enablePre : Bool) :
    ExtractResult :=
  match extractInner env language enablePre with
  | .ok r => r
  | .error e => ⟨"", 0, 0, language, none, false, some e⟩

/- ### CAPTCHA solving (`captcha_solver.py`, class `CaptchaSolver`)

`solve` extracts candidate text via `_extract_captcha_text` (which catches
every internal exception and returns `None`), rejects a falsy candidate, and
otherwise calls `_input_captcha_text` — whose Boolean result it discards —
and returns `True`. `_input_captcha_text` looks the input field up by ID,
falls back to the CSS selector `#<id>`, clears it and sends the keys,
catching every exception into `False`. The Selenium driver and the image
download are external, supplied by an environment; the OCR processor is a
Python object on which the (possibly missing) method `extract_text` is
looked up dynamically. -/

/-- A Python OCR-processor object: the set of method names it defines, and
the behaviour of `extract_text` in case it is defined. -/
structure OcrObj where
  methods : List String
  extract_text : Img → Option String

/-- The methods defined by class `OCRProcessor` in `ocr.py`. -/
def OCRProcessor_methods : List String :=
  ["__init__", "extract_text_from_image", "extract_table_data", "_load_image",
   "_preprocess_image", "batch_extract_text", "set_language", "validate_tesseract"]

/-- The default `OCRProcessor()` instance used by `CaptchaSolver.__init__`
when no processor is injected. -/
def ocrProcessorObj : OcrObj :=
  ⟨OCRProcessor_methods, fun _ => none⟩

/-- Python attribute lookup + call `self.ocr_processor.extract_text(img)`:
`AttributeError` when the object does not define the method. -/
def callExtractText (o : OcrObj) (img : Img) : Except PyErr (Option String) :=
  if "extract_text" ∈ o.methods then .ok (o.extract_text img) else .error .AttributeError

/-- External page state seen by `CaptchaSolver`: the CAPTCHA `<img>` lookup
and its `src` attribute, the image download (`_download_image` catches its
own failures into `None`), the two input-field lookups, and whether
`clear()` and `send_keys()` succeed. -/
structure PageEnv where
  captchaImgSrc : Except PyErr (Option String)
  download : String → Option Img
  findInputById : String → Bool
  findInputByCss : String → Bool
  clearOk : Bool
  sendKeysOk : Bool

/-- Embedding of `CaptchaSolver._extract_captcha_text`: any failure yields `None`; a falsy
(`None` or empty) OCR result yields `None`; otherwise the stripped text. -/
def extract_captcha_text (env : PageEnv) (ocr : OcrObj) : Option String :=
  match env.captchaImgSrc with
  | .error _ => none
  | .ok none => none
  | .ok (some src) =>
    if src = "" then none
    else
      match env.download src with
      | none => none
      | some img =>
        match callExtractText ocr img with
        | .error _ => none
        | .ok none => none
        | .ok (some t) => if t = "" then none else some (pyStrip t)

/-- Embedding of `CaptchaSolver._input_captcha_text`: find by ID, fall back to the CSS
selector `#<id>`; clear and send keys; every exception becomes `False`. -/
def input_captcha_text (env : PageEnv) (_text input_id : String) : Bool :=
  if env.findInputById input_id then env.clearOk && env.sendKeysOk
  else if env.findInputByCss ("#" ++ input_id) then env.clearOk && env.sendKeysOk
  else false

/-- Embedding of `CaptchaSolver.solve`: `False` on a falsy candidate; otherwise it calls
`_input_captcha_text`, discards its Boolean result, and returns `True`. -/
def solve (env : PageEnv) (ocr : OcrObj) (input_id : String) : Bool :=
  match extract_captcha_text env ocr with
  | none => false
  | some t =>
    if t = "" then false
    else
      let _ := input_captcha_text env t input_id
      true

/- ### Challenge solve session (spec §4.6, §8)

The only caller of `CaptchaSolver.solve` in this repository
(`AttachmentDownloader._download_attachment`, `downloader.py` lines 115-121)
invokes it a single time; no retry driver exists under `src/`. The session
below is therefore modelled from the spec. -/

/-- Outcome of a single challenge attempt (spec §3, ChallengeAttempt). -/
inductive AttemptOutcome where
  | Solved
  | ExtractionFailed
  | SubmissionFailed
deriving DecidableEq, Repr

/-- Terminal state of a challenge solve session (spec §4.6). -/
inductive SessionOutcome where
  | Solved
  | Exhausted
deriving DecidableEq, Repr

/-- One recorded challenge attempt: 1-based number, extracted candidate
(nullable), and outcome (spec §3, ChallengeAttempt). -/
structure ChallengeAttempt where
  number : ℕ
  candidate : Option String
  outcome : AttemptOutcome
deriving DecidableEq, Repr

/-- Modelled from the spec: the retry driver of a ChallengeSolveSession is
absent from `src/` (the downloader invokes `solve` once); per spec §4.6 the
caller re-invokes the Idle→… cycle up to a configured maximum number of
attempts, records one ChallengeAttempt per cycle, stops at the first Solved
outcome and terminates at `Exhausted` once the maximum is reached without a
Solved outcome. `attempt n` yields the candidate and outcome of attempt `n`. -/
def runSessionFrom (attempt : ℕ → Option String × AttemptOutcome) :
    ℕ → ℕ → List ChallengeAttempt × SessionOutcome
  | _, 0 => ([], .Exhausted)
  | n, r + 1 =>
    let (cand, out) := attempt n
    let att : ChallengeAttempt := ⟨n, cand, out⟩
    if out = .Solved then ([att], .Solved)
    else
      let (rest, res) := runSessionFrom attempt (n + 1) r
      (att :: rest, res)

/-- Modelled from the spec: a ChallengeSolveSession configured with
`maxAttempts`, numbering attempts from 1. -/
def runSession (attempt : ℕ → Option String × AttemptOutcome) (maxAttempts : ℕ) :
    List ChallengeAttempt × SessionOutcome :=
  runSessionFrom attempt 1 maxAttempts

/-- A recognition stub that always extracts empty candidate text, so every
attempt ends in ExtractionFailed. -/
def emptyTextStub : ℕ → Option String × AttemptOutcome :=
  fun _ => (some "", .ExtractionFailed)

/-! ## Theorems -/

theorem pythonRound_dist_le (q : ℚ) : |(pythonRound q : ℚ) - q| ≤ 1 / 2 := by
  have h0 : (0 : ℚ) ≤ q - ⌊q⌋ := by
    have := Int.floor_le q
    linarith
  have h1 : q - ⌊q⌋ < 1 := by
    have := Int.lt_floor_add_one q
    linarith
  unfold pythonRound
  by_cases hlt : q - (⌊q⌋ : ℚ) < 1 / 2
  · simp only [hlt, if_true]
    rw [abs_le]
    constructor <;> linarith
  · simp only [hlt, if_false]
    by_cases hgt : (1 : ℚ) / 2 < q - ⌊q⌋
    · simp only [hgt, if_true]
      rw [abs_le]
      push_cast
      constructor <;> linarith
    · have heq : q - (⌊q⌋ : ℚ) = 1 / 2 := by linarith
      simp only [hgt, if_false]
      by_cases hev : ⌊q⌋ % 2 = 0
      · simp only [hev, if_true]
        rw [abs_le]
        constructor <;> linarith
      · simp only [hev, if_false]
        rw [abs_le]
        push_cast
        constructor <;> linarith

theorem rowKey_mul_ten (y : ℕ) : (10 : ℤ) ∣ rowKey y := by
  unfold rowKey
  exact Dvd.intro_left _ rfl

theorem rowKey_dist_le (y : ℕ) : |(rowKey y : ℚ) - y| ≤ 5 := by
  have h := pythonRound_dist_le ((y : ℚ) / 10)
  unfold rowKey
  push_cast
  have : (pythonRound ((y : ℚ) / 10) : ℚ) * 10 - y
      = ((pythonRound ((y : ℚ) / 10) : ℚ) - y / 10) * 10 := by ring
  rw [this, abs_mul]
  have h10 : |(10 : ℚ)| = 10 := by norm_num
  rw [h10]
  nlinarith [abs_nonneg ((pythonRound ((y : ℚ) / 10) : ℚ) - y / 10)]

/- ### Helper lemmas about the stable sort and the grouping loop -/

theorem insSorted_perm (le : α → α → Bool) (a : α) (l : List α) :
    (insSorted le a l).Perm (a :: l) := by
  induction l with
  | nil => exact List.Perm.refl _
  | cons b bs ih =>
    by_cases h : le a b
    · simp [insSorted, h]
    · simp only [insSorted, if_neg h]
      exact (List.Perm.cons b ih).trans (List.Perm.swap a b bs)

theorem stableSort_perm (le : α → α → Bool) (l : List α) :
    (stableSort le l).Perm l := by
  induction l with
  | nil => exact List.Perm.refl _
  | cons a as ih =>
    exact (insSorted_perm le a (stableSort le as)).trans (List.Perm.cons a ih)

theorem insSorted_pairwise (le : α → α → Bool)
    (htot : ∀ a b, le a b = true ∨ le b a = true)
    (htrans : ∀ a b c, le a b = true → le b c = true → le a c = true)
    (a : α) (l : List α) (h : l.Pairwise (fun x y => le x y = true)) :
    (insSorted le a l).Pairwise (fun x y => le x y = true) := by
  induction l with
  | nil => simp [insSorted]
  | cons b bs ih =>
    obtain ⟨hb, hbs⟩ := List.pairwise_cons.mp h
    by_cases hab : le a b = true
    · simp only [insSorted, hab, if_pos]
      refine List.Pairwise.cons ?_ (List.Pairwise.cons hb hbs)
      intro c hc
      rcases List.mem_cons.mp hc with rfl | hc'
      · exact hab
      · exact htrans a b c hab (hb c hc')
    · simp only [insSorted, if_neg hab]
      have hba : le b a = true := by
        rcases htot a b with h' | h'
        · exact absurd h' hab
        · exact h'
      refine List.Pairwise.cons ?_ (ih hbs)
      intro c hc
      have hmem : c = a ∨ c ∈ bs := by
        simpa using (insSorted_perm le a bs).mem_iff.mp hc
      rcases hmem with rfl | hc'
      · exact hba
      · exact hb c hc'

theorem stableSort_pairwise (le : α → α → Bool)
    (htot : ∀ a b, le a b = true ∨ le b a = true)
    (htrans : ∀ a b c, le a b = true → le b c = true → le a c = true)
    (l : List α) :
    (stableSort le l).Pairwise (fun x y => le x y = true) := by
  induction l with
  | nil => simp [stableSort]
  | cons a as ih => exact insSorted_pairwise le htot htrans a _ ih

theorem insertTok_flatten (rows : List (ℤ × List Tok)) (k : ℤ) (t : Tok) :
    (((insertTok rows k t).map Prod.snd).flatten).Perm
      ((rows.map Prod.snd).flatten ++ [t]) := by
  induction rows with
  | nil => simp [insertTok]
  | cons p rest ih =>
    obtain ⟨k', ts⟩ := p
    by_cases h : k' = k
    · simp only [insertTok, if_pos h, List.map_cons, List.flatten_cons]
      simp only [List.append_assoc]
      exact List.Perm.append_left ts List.perm_append_comm
    · simp only [insertTok, if_neg h, List.map_cons, List.flatten_cons]
      simp only [List.append_assoc]
      refine List.Perm.append_left ts ?_
      simpa [List.append_assoc] using ih

theorem buildRows_flatten_aux (toks : List Tok) (acc : List (ℤ × List Tok)) :
    (((toks.foldl (fun rows t => if qualifies t then insertTok rows (rowKey t.y) t else rows)
        acc).map Prod.snd).flatten).Perm
      ((acc.map Prod.snd).flatten ++ toks.filter (fun t => qualifies t)) := by
  induction toks generalizing acc with
  | nil => simp
  | cons t ts ih =>
    by_cases h : qualifies t
    · simp only [List.foldl_cons, if_pos h, List.filter_cons, h]
      refine (ih (insertTok acc (rowKey t.y) t)).trans ?_
      have h1 := insertTok_flatten acc (rowKey t.y) t
      refine (h1.append_right (ts.filter (fun t => qualifies t))).trans ?_
      rw [List.append_assoc]
      exact List.Perm.append_left _ (by simp)
    · simp only [List.foldl_cons, if_neg h, List.filter_cons]
      exact ih acc

theorem buildRows_flatten (toks : List Tok) :
    (((buildRows toks).map Prod.snd).flatten).Perm (toks.filter (fun t => qualifies t)) := by
  simpa using buildRows_flatten_aux toks []

theorem insertTok_keys (rows : List (ℤ × List Tok)) (k : ℤ) (t : Tok)
    (hinv : ∀ p ∈ rows, ∀ u ∈ p.2, rowKey u.y = p.1) (ht : rowKey t.y = k) :
    ∀ p ∈ insertTok rows k t, ∀ u ∈ p.2, rowKey u.y = p.1 := by
  induction rows with
  | nil =>
    intro p hp u hu
    simp only [insertTok, List.mem_singleton] at hp
    subst hp
    simp only [List.mem_singleton] at hu
    subst hu
    exact ht
  | cons q rest ih =>
    obtain ⟨k', ts⟩ := q
    intro p hp u hu
    by_cases h : k' = k
    · simp only [insertTok, if_pos h, List.mem_cons] at hp
      rcases hp with rfl | hp
      · simp only [List.mem_append, List.mem_singleton] at hu
        rcases hu with hu | rfl
        · exact hinv (k', ts) (List.mem_cons_self _ _) u hu
        · rw [ht, h]
      · exact hinv p (List.mem_cons_of_mem _ hp) u hu
    · simp only [insertTok, if_neg h, List.mem_cons] at hp
      rcases hp with rfl | hp
      · exact hinv _ (List.mem_cons_self _ _) u hu
      · exact ih (fun q hq => hinv q (List.mem_cons_of_mem _ hq)) p hp u hu

theorem buildRows_keys (toks : List Tok) :
    ∀ p ∈ buildRows toks, ∀ u ∈ p.2, rowKey u.y = p.1 := by
  suffices h : ∀ acc, (∀ p ∈ acc, ∀ u ∈ p.2, rowKey u.y = p.1) →
      ∀ p ∈ toks.foldl
        (fun rows t => if qualifies t then insertTok rows (rowKey t.y) t else rows) acc,
        ∀ u ∈ p.2, rowKey u.y = p.1 by
    exact h [] (by simp)
  induction toks with
  | nil => intro acc hacc; simpa using hacc
  | cons t ts ih =>
    intro acc hacc
    simp only [List.foldl_cons]
    by_cases h : qualifies t
    · rw [if_pos h]
      exact ih _ (insertTok_keys acc (rowKey t.y) t hacc rfl)
    · rw [if_neg h]
      exact ih _ hacc

theorem buildRows_eq_nil (toks : List Tok)
    (h : toks.filter (fun t => qualifies t) = []) : buildRows toks = [] := by
  unfold buildRows
  induction toks with
  | nil => rfl
  | cons t ts ih =>
    simp only [List.filter_cons] at h
    by_cases hq : qualifies t
    · rw [if_pos hq] at h
      exact absurd h (List.cons_ne_nil _ _)
    · rw [if_neg hq] at h
      simp only [List.foldl_cons, if_neg hq]
      exact ih h

theorem flatten_map_sort_perm (le : Tok → Tok → Bool) (L : List (ℤ × List Tok)) :
    ((L.map (fun p => stableSort le p.2)).flatten).Perm ((L.map Prod.snd).flatten) := by
  induction L with
  | nil => simp
  | cons p rest ih =>
    simp only [List.map_cons, List.flatten_cons]
    exact (stableSort_perm le p.2).append ih

theorem sorted_buckets_flatten_perm (toks : List Tok) :
    (((sorted_buckets toks).map Prod.snd).flatten).Perm
      (toks.filter (fun t => qualifies t)) := by
  unfold sorted_buckets
  rw [List.map_map]
  have h1 : (List.map (Prod.snd ∘ fun p : ℤ × List Tok =>
      (p.1, stableSort (fun a b => decide (a.x ≤ b.x)) p.2))
        (stableSort (fun p q => decide (p.1 ≤ q.1)) (buildRows toks)))
      = List.map (fun p : ℤ × List Tok => stableSort (fun a b => decide (a.x ≤ b.x)) p.2)
        (stableSort (fun p q => decide (p.1 ≤ q.1)) (buildRows toks)) := by
    simp [Function.comp]
  rw [h1]
  refine (flatten_map_sort_perm _ _).trans ?_
  refine (((stableSort_perm _ (buildRows toks)).map Prod.snd).flatten).trans ?_
  exact buildRows_flatten toks

theorem sorted_buckets_keys_sorted (toks : List Tok) :
    (sorted_buckets toks).Pairwise (fun p q => p.1 ≤ q.1) := by
  unfold sorted_buckets
  rw [List.pairwise_map]
  have h := stableSort_pairwise (fun p q : ℤ × List Tok => decide (p.1 ≤ q.1))
    (fun a b => by
      rcases Int.le_total a.1 b.1 with h | h
      · exact Or.inl (by simpa using h)
      · exact Or.inr (by simpa using h))
    (fun a b c hab hbc => by
      simp only [decide_eq_true_eq] at hab hbc ⊢
      exact le_trans hab hbc)
    (buildRows toks)
  refine h.imp ?_
  intro a b hab
  simpa using hab

theorem sorted_buckets_rows_sorted (toks : List Tok) :
    ∀ p ∈ sorted_buckets toks, p.2.Pairwise (fun a b => a.x ≤ b.x) := by
  intro p hp
  unfold sorted_buckets at hp
  rcases List.mem_map.mp hp with ⟨q, _, rfl⟩
  have h := stableSort_pairwise (fun a b : Tok => decide (a.x ≤ b.x))
    (fun a b => by
      rcases Nat.le_total a.x b.x with h | h
      · exact Or.inl (by simpa using h)
      · exact Or.inr (by simpa using h))
    (fun a b c hab hbc => by
      simp only [decide_eq_true_eq] at hab hbc ⊢
      exact le_trans hab hbc)
    q.2
  refine h.imp ?_
  intro a b hab
  simpa using hab

theorem sorted_buckets_keys (toks : List Tok) :
    ∀ p ∈ sorted_buckets toks, ∀ u ∈ p.2, rowKey u.y = p.1 := by
  intro p hp u hu
  unfold sorted_buckets at hp
  rcases List.mem_map.mp hp with ⟨q, hq, rfl⟩
  have hq' : q ∈ buildRows toks :=
    (stableSort_perm (fun p q => decide (p.1 ≤ q.1)) (buildRows toks)).mem_iff.mp hq
  have hu' : u ∈ q.2 :=
    (stableSort_perm (fun a b => decide (a.x ≤ b.x)) q.2).mem_iff.mp hu
  exact buildRows_keys toks q hq' u hu'

theorem extract_table_empty (toks : List Tok)
    (h : toks.filter (fun t => qualifies t) = []) : extract_table toks = [] := by
  unfold extract_table sorted_buckets
  rw [buildRows_eq_nil toks h]
  rfl

/- ### Claim theorems about confidence aggregation and table reconstruction -/

/-- C1: the average confidence computed by `extract_text_from_image` is the
arithmetic mean of the confidences strictly greater than 0 (mean times count
equals their sum), is exactly 0 when no confidence is strictly positive, and
lies in [0,100] whenever every reported confidence is at most 100 (Tesseract
reports confidences in -1..100). -/
theorem avgConfidence_mean_and_bounds (confs : List ℤ)
    (hb : ∀ c ∈ confs, c ≤ 100) :
    ((confs.filter (fun c => 0 < c)) ≠ [] →
      avgConfidence confs * ((confs.filter (fun c => 0 < c)).length : ℚ)
        = ((confs.filter (fun c => 0 < c)).sum : ℚ)) ∧
    ((confs.filter (fun c => 0 < c)) = [] → avgConfidence confs = 0) ∧
    0 ≤ avgConfidence confs ∧ avgConfidence confs ≤ 100 := by
  have hpos : ∀ c ∈ confs.filter (fun c => 0 < c), 0 < c := by
    intro c hc
    have := (List.mem_filter.mp hc).2
    simpa using this
  have hle : ∀ c ∈ confs.filter (fun c => 0 < c), c ≤ 100 := by
    intro c hc
    exact hb c (List.mem_filter.mp hc).1
  by_cases hnil : confs.filter (fun c => 0 < c) = []
  · have h0 : avgConfidence confs = 0 := by
      unfold avgConfidence
      rw [hnil]
      rfl
    refine ⟨fun h => absurd hnil h, fun _ => h0, ?_, ?_⟩
    · rw [h0]
    · rw [h0]; norm_num
  · have hlen : 0 < (confs.filter (fun c => 0 < c)).length :=
      List.length_pos.mpr hnil
    have hlenQ : (0:ℚ) < ((confs.filter (fun c => 0 < c)).length : ℚ) := by
      exact_mod_cast hlen
    have havg : avgConfidence confs
        = ((confs.filter (fun c => 0 < c)).sum : ℚ)
          / ((confs.filter (fun c => 0 < c)).length : ℚ) := by
      unfold avgConfidence
      rw [if_neg (by simpa [List.isEmpty_iff] using hnil)]
    have hsum0 : (0:ℤ) ≤ (confs.filter (fun c => 0 < c)).sum :=
      List.sum_nonneg (fun c hc => le_of_lt (hpos c hc))
    have hsum100 : (confs.filter (fun c => 0 < c)).sum
        ≤ ((confs.filter (fun c => 0 < c)).length : ℤ) * 100 := by
      have := List.sum_le_card_nsmul (confs.filter (fun c => 0 < c)) 100 hle
      simpa [nsmul_eq_mul] using this
    refine ⟨fun _ => ?_, fun h => absurd h hnil, ?_, ?_⟩
    · rw [havg]
      field_simp
    · rw [havg]
      apply div_nonneg _ (le_of_lt hlenQ)
      exact_mod_cast hsum0
    · rw [havg]
      rw [div_le_iff₀ hlenQ]
      have : ((confs.filter (fun c => 0 < c)).sum : ℚ)
          ≤ ((confs.filter (fun c => 0 < c)).length : ℚ) * 100 := by
        exact_mod_cast hsum100
      linarith

/-- Witness for C1 at `confs = [50, 0, -1, 100]`: the positive entries are
`[50, 100]`, averaging to 75. -/
theorem avgConfidence_mean_and_bounds_witness :
    avgConfidence [50, 0, -1, 100] * 2 = 150 ∧
    0 ≤ avgConfidence [50, 0, -1, 100] ∧ avgConfidence [50, 0, -1, 100] ≤ 100 := by
  have h := avgConfidence_mean_and_bounds [50, 0, -1, 100] (by decide)
  refine ⟨?_, h.2.2.1, h.2.2.2⟩
  have h1 := h.1 (by decide)
  have h2 : (([50, 0, -1, 100] : List ℤ).filter (fun c => 0 < c)) = [50, 100] := by decide
  rw [h2] at h1
  simpa using h1

/-- C5: `extract_table_data` assigns every qualifying token to the row bucket
keyed `round(y / 10) * 10` — a multiple of 10 within distance 5 of y, i.e. the
y-coordinate quantized to a nearest multiple of 10; tokens at y = 100 and
y = 104 get the same bucket key, and y = 100 and y = 112 get different keys. -/
theorem rowKey_bucket_quantization :
    (∀ y : ℕ, (10:ℤ) ∣ rowKey y ∧ |(rowKey y : ℚ) - (y:ℚ)| ≤ 5) ∧
    (∀ toks : List Tok, ∀ p ∈ sorted_buckets toks, ∀ u ∈ p.2, rowKey u.y = p.1) ∧
    rowKey 100 = rowKey 104 ∧ rowKey 100 ≠ rowKey 112 := by
  refine ⟨fun y => ⟨rowKey_mul_ten y, rowKey_dist_le y⟩, sorted_buckets_keys, ?_, ?_⟩
  · have h1 : rowKey 100 = 100 := by with_unfolding_all rfl
    have h2 : rowKey 104 = 100 := by with_unfolding_all rfl
    rw [h1, h2]
  · have h1 : rowKey 100 = 100 := by with_unfolding_all rfl
    have h2 : rowKey 112 = 110 := by with_unfolding_all rfl
    rw [h1, h2]
    decide

/-- Witness for C5: the single qualifying token at y = 104 lands in the bucket
with key 100 of the reconstructed table. -/
theorem rowKey_bucket_quantization_witness : rowKey 104 = 100 := by
  have hsb : sorted_buckets [⟨3, 104, 90, "a"⟩] = [(100, [⟨3, 104, 90, "a"⟩])] := by
    with_unfolding_all rfl
  have hmem : ((100 : ℤ), [(⟨3, 104, 90, "a"⟩ : Tok)]) ∈ sorted_buckets [⟨3, 104, 90, "a"⟩] := by
    rw [hsb]
    exact List.mem_singleton.mpr rfl
  exact rowKey_bucket_quantization.2.1 [⟨3, 104, 90, "a"⟩] _ hmem
    ⟨3, 104, 90, "a"⟩ (List.mem_singleton.mpr rfl)

/-- C6 counterexample: the token (x=0, y=0, conf=50, text=" ") has confidence
strictly greater than 0 and non-empty text, yet `extract_table_data` discards
it (the code keeps a token only when `text.strip()` is truthy), so the table
is empty: "discards exactly the tokens with confidence ≤ 0 or empty text"
fails as stated. -/
theorem extract_table_whitespace_counterexample :
    (0:ℤ) < 50 ∧ (" " : String) ≠ "" ∧ extract_table [⟨0, 0, 50, " "⟩] = [] := by
  refine ⟨by decide, by decide, ?_⟩
  with_unfolding_all rfl

/-- C6 (amended: a token is discarded exactly when its confidence is ≤ 0 or
its text is empty or whitespace-only): `extract_table_data` keeps exactly the
tokens with positive confidence and non-whitespace text (the flattened table
is a permutation of them), orders buckets by ascending quantized y, orders
each bucket by ascending x, and returns an empty row sequence (no error)
when no token qualifies. -/
theorem extract_table_structure (toks : List Tok) :
    (((sorted_buckets toks).map Prod.snd).flatten).Perm
      (toks.filter (fun t => qualifies t)) ∧
    (sorted_buckets toks).Pairwise (fun p q => p.1 ≤ q.1) ∧
    (∀ p ∈ sorted_buckets toks, p.2.Pairwise (fun a b => a.x ≤ b.x)) ∧
    (toks.filter (fun t => qualifies t) = [] → extract_table toks = []) ∧
    extract_table toks = (sorted_buckets toks).map (fun p => p.2.map Tok.text) :=
  ⟨sorted_buckets_flatten_perm toks, sorted_buckets_keys_sorted toks,
   sorted_buckets_rows_sorted toks, extract_table_empty toks, rfl⟩

/-- Witness for C6 at a concrete token list: an all-discarded list yields an
empty table, and a two-row example produces the expected sorted rows. -/
theorem extract_table_structure_witness :
    extract_table [⟨0, 0, 0, "zero"⟩] = [] ∧
    extract_table [⟨7, 100, 90, "b"⟩, ⟨2, 104, 80, "a"⟩, ⟨1, 112, 70, "c"⟩]
      = [["a", "b"], ["c"]] := by
  constructor
  · exact (extract_table_structure [⟨0, 0, 0, "zero"⟩]).2.2.2.1 (by decide)
  · with_unfolding_all rfl

/-- C7: `_preprocess_image` never propagates an error (its return type is
total): when any internal step fails it returns the original image unmodified
together with a recorded warning, and when the pipeline succeeds it returns
the processed image with no warning. -/
theorem preprocess_image_total_fallback (env : CvEnv) (img : Img) :
    (∀ e, preprocessInner env img = .error e → preprocess_image env img = (img, true)) ∧
    (∀ out, preprocessInner env img = .ok out → preprocess_image env img = (out, false)) := by
  constructor
  · intro e h
    unfold preprocess_image
    rw [h]
  · intro out h
    unfold preprocess_image
    rw [h]

/-- Witness for C7: a denoiser failure makes `_preprocess_image` return the
original RGB image with the warning flag set. -/
theorem preprocess_image_total_fallback_witness :
    preprocess_image
      ⟨none, none, fun _ _ _ => 0, fun _ => .error (.Other "denoise"), fun _ _ _ _ => 0⟩
      ⟨60, 200, 3, fun _ _ => 7⟩
    = (⟨60, 200, 3, fun _ _ => 7⟩, true) := by
  apply (preprocess_image_total_fallback _ _).1 (.Other "denoise")
  rfl

/-- C9: once grayscale conversion, binarization and denoising have produced
`den`, the pipeline resizes by a factor of exactly 2 in both dimensions using
cubic interpolation when the height of `den` is strictly below 300, and leaves the
resolution unchanged when the height is at or above 300. -/
theorem preprocess_image_upscale (env : CvEnv) (img gray bin den : Img)
    (hg : (if img.channels ≠ 1 then cv2_cvtColor_RGB2GRAY env img else pure img) = .ok gray)
    (hb : cv2_threshold_binary env gray 150 255 = .ok bin)
    (hd : env.denoise bin = .ok den) :
    (den.height < 300 →
      preprocessInner env img = .ok (cv2_resize_scale env den 2 2 .INTER_CUBIC) ∧
      (preprocess_image env img).1.height = 2 * den.height ∧
      (preprocess_image env img).1.width = 2 * den.width) ∧
    (300 ≤ den.height →
      preprocessInner env img = .ok den ∧ (preprocess_image env img).1 = den) := by
  have hinner : preprocessInner env img
      = .ok (if den.height < 300 then cv2_resize_scale env den 2 2 .INTER_CUBIC else den) := by
    unfold preprocessInner
    rw [hg]
    simp only [Except.bind]
    rw [hb]
    simp only [Except.bind]
    rw [hd]
    simp only [Except.bind]
    rfl
  constructor
  · intro hlt
    rw [hinner, if_pos hlt]
    refine ⟨rfl, ?_, ?_⟩
    · unfold preprocess_image
      rw [hinner, if_pos hlt]
      rfl
    · unfold preprocess_image
      rw [hinner, if_pos hlt]
      rfl
  · intro hge
    have hnlt : ¬ den.height < 300 := not_lt.mpr hge
    rw [hinner, if_neg hnlt]
    refine ⟨rfl, ?_⟩
    unfold preprocess_image
    rw [hinner, if_neg hnlt]

/-- Witness for C9: a 60×200 RGB image that survives all steps is upscaled
to 120×400; a 600-pixel-high one is left at its native resolution. -/
theorem preprocess_image_upscale_witness :
    (preprocess_image
      ⟨none, none, fun _ _ _ => 5, fun i => .ok i, fun _ _ _ _ => 0⟩
      ⟨60, 200, 3, fun _ _ => 7⟩).1.height = 120 ∧
    (preprocess_image
      ⟨none, none, fun _ _ _ => 5, fun i => .ok i, fun _ _ _ _ => 0⟩
      ⟨60, 200, 3, fun _ _ => 7⟩).1.width = 400 ∧
    (preprocess_image
      ⟨none, none, fun _ _ _ => 5, fun i => .ok i, fun _ _ _ _ => 0⟩
      ⟨600, 200, 3, fun _ _ => 7⟩).1.height = 600 := by
  have h1 := preprocess_image_upscale
    ⟨none, none, fun _ _ _ => 5, fun i => .ok i, fun _ _ _ _ => 0⟩
    ⟨60, 200, 3, fun _ _ => 7⟩ _ _ _ rfl rfl rfl
  have h2 := preprocess_image_upscale
    ⟨none, none, fun _ _ _ => 5, fun i => .ok i, fun _ _ _ _ => 0⟩
    ⟨600, 200, 3, fun _ _ => 7⟩ _ _ _ rfl rfl rfl
  obtain ⟨hh, hw⟩ := (h1.1 (by norm_num)).2
  refine ⟨?_, ?_, ?_⟩
  · rw [hh]
    rfl
  · rw [hw]
    rfl
  · rw [(h2.2 (by norm_num)).2]

/-- C8: a text input starting with `/` or `.` is loaded as a file path;
otherwise base64 decoding followed by image-container decoding is attempted
first, and if that attempt fails the text is loaded as a literal file path. -/
theorem load_image_str_dispatch (env : LoadEnv) (s : String) :
    ((pyStartsWith s "/" || pyStartsWith s ".") = true →
      load_image_str env s = env.openPath s) ∧
    ((pyStartsWith s "/" || pyStartsWith s ".") = false →
      (∀ img, (env.b64decode s).bind env.openBytes = .ok img →
        load_image_str env s = .ok img) ∧
      (∀ e, (env.b64decode s).bind env.openBytes = .error e →
        load_image_str env s = env.openPath s)) := by
  constructor
  · intro h
    unfold load_image_str
    rw [if_pos h]
  · intro h
    constructor
    · intro img himg
      unfold load_image_str
      rw [if_neg (by simp [h]), himg]
    · intro e he
      unfold load_image_str
      rw [if_neg (by simp [h]), he]

/-- Witness for C8: `/a.png` goes to the path loader; a non-path text is
decoded via base64 when that pipeline succeeds and falls back to the path
loader when it fails. -/
theorem load_image_str_dispatch_witness :
    load_image_str
      ⟨fun _ => .error (.Other "io"), fun _ => .ok [1], fun _ => .ok ⟨2, 2, 1, fun _ _ => 1⟩⟩
      "/a.png"
      = .error (.Other "io") ∧
    load_image_str
      ⟨fun _ => .error (.Other "io"), fun _ => .ok [1], fun _ => .ok ⟨2, 2, 1, fun _ _ => 1⟩⟩
      "QUJD"
      = .ok ⟨2, 2, 1, fun _ _ => 1⟩ ∧
    load_image_str
      ⟨fun _ => .error (.Other "io"), fun _ => .error .ValueError, fun _ => .ok ⟨2, 2, 1, fun _ _ => 1⟩⟩
      "notbase64!"
      = .error (.Other "io") := by
  refine ⟨?_, ?_, ?_⟩
  · exact (load_image_str_dispatch _ "/a.png").1 (by decide)
  · exact ((load_image_str_dispatch _ "QUJD").2 (by decide)).1 _ rfl
  · exact ((load_image_str_dispatch _ "notbase64!").2 (by decide)).2 .ValueError rfl

/-- C3 counterexample: with the engine missing (`image_to_string` raises
`TesseractNotFoundError`), `extract_text_from_image` catches the error and
returns the ordinary failed result dict — the condition is recovered
internally, not propagated to the caller as the claim states. -/
theorem extract_text_unavailable_counterexample :
    extract_text_from_image
      ⟨.ok ⟨10, 10, 1, fun _ _ => 0⟩,
       ⟨none, none, fun _ _ _ => 0, fun i => .ok i, fun _ _ _ _ => 0⟩,
       fun _ _ => .error .TesseractNotFoundError,
       fun _ _ => .error .TesseractNotFoundError⟩
      "spa" true
      = ⟨"", 0, 0, "spa", none, false, some .TesseractNotFoundError⟩ := by
  rfl

/-- C3 (amended): when the OCR engine cannot be reached (the Tesseract call
raises `TesseractNotFoundError`), `extract_text_from_image` does not
propagate the error: it catches it and returns an ordinary failed
RecognitionResult — empty text, confidence 0, `success = false`, and the
error message recorded. -/
theorem extract_text_unavailable_recovered (env : OcrEnv) (language : String)
    (enablePre : Bool) (img0 : Img)
    (hload : env.load = .ok img0)
    (hs : env.image_to_string
        (if enablePre then (preprocess_image env.pre img0).1 else img0) language
      = .error .TesseractNotFoundError) :
    extract_text_from_image env language enablePre
      = ⟨"", 0, 0, language, none, false, some .TesseractNotFoundError⟩ := by
  unfold extract_text_from_image extractInner
  rw [hload]
  simp only [Except.bind]
  rw [hs]

/-- Witness for C3 (amended) with preprocessing disabled and a concrete
engine-missing environment. -/
theorem extract_text_unavailable_recovered_witness :
    extract_text_from_image
      ⟨.ok ⟨10, 10, 1, fun _ _ => 0⟩,
       ⟨none, none, fun _ _ _ => 0, fun i => .ok i, fun _ _ _ _ => 0⟩,
       fun _ _ => .error .TesseractNotFoundError,
       fun _ _ => .ok ⟨[90]⟩⟩
      "spa" false
      = ⟨"", 0, 0, "spa", none, false, some .TesseractNotFoundError⟩ :=
  extract_text_unavailable_recovered _ "spa" false ⟨10, 10, 1, fun _ _ => 0⟩ rfl rfl

/-- C2: code bug. With a non-empty candidate ("ABC12") extracted and the
input field findable neither by ID nor by CSS selector, the injection step
fails (`_input_captcha_text` returns `False`), yet `solve` reports the
CAPTCHA as solved (`True`), because it discards the Boolean result of
`_input_captcha_text` — contradicting both the claim and the docstring of
`solve` ("True if CAPTCHA was solved successfully"). -/
theorem solve_ignores_submission_failure :
    input_captcha_text
      ⟨.ok (some "x/Captcha.aspx"), fun _ => some ⟨5, 20, 1, fun _ _ => 0⟩,
       fun _ => false, fun _ => false, true, true⟩
      "ABC12" "DWNL$ctl10" = false ∧
    solve
      ⟨.ok (some "x/Captcha.aspx"), fun _ => some ⟨5, 20, 1, fun _ _ => 0⟩,
       fun _ => false, fun _ => false, true, true⟩
      ⟨["extract_text"], fun _ => some "ABC12"⟩ "DWNL$ctl10" = true := by
  constructor
  · rfl
  · with_unfolding_all rfl

/-- C10: with the default `OCRProcessor` — which defines no `extract_text`
method — the OCR call in `_extract_captcha_text` raises `AttributeError` on
every page state, so the candidate is always `None` and `solve` always
returns `False`, whatever the page looks like. -/
theorem solve_always_false_with_default_ocr (env : PageEnv) (input_id : String) :
    extract_captcha_text env ocrProcessorObj = none ∧
    solve env ocrProcessorObj input_id = false := by
  have hcall : ∀ img, callExtractText ocrProcessorObj img = .error .AttributeError := by
    intro img
    unfold callExtractText
    rw [if_neg]
    decide
  have hext : extract_captcha_text env ocrProcessorObj = none := by
    unfold extract_captcha_text
    split
    · rfl
    · rfl
    · split
      · rfl
      · split
        · rfl
        · rename_i img heq
          rw [hcall img]
  refine ⟨hext, ?_⟩
  unfold solve
  rw [hext]

/-- C4: a session configured with maximum attempts = 3, driven against a
recognition stub that always yields empty extracted text, records exactly 3
ChallengeAttempt records with 1-based attempt numbers 1, 2, 3, and
terminates with outcome Exhausted. -/
theorem session_three_attempts_exhausted :
    (runSession emptyTextStub 3).1.length = 3 ∧
    (runSession emptyTextStub 3).1.map ChallengeAttempt.number = [1, 2, 3] ∧
    (runSession emptyTextStub 3).2 = .Exhausted ∧
    runSession emptyTextStub 3
      = ([⟨1, some "", .ExtractionFailed⟩, ⟨2, some "", .ExtractionFailed⟩,
          ⟨3, some "", .ExtractionFailed⟩], .Exhausted) := by
  refine ⟨rfl, rfl, rfl, rfl⟩

end MPScraper
